import Mathlib

/-!
Verification of the client-side synchronization core of an ASX stock
portfolio dashboard (React/TypeScript frontend).

The development shallowly embeds the relevant functions and effect loops of
`src/frontend/src/services/asxApi.ts`,
`src/frontend/src/components/Dashboard.tsx`,
`src/frontend/src/components/TradingViewChart.tsx`,
`src/frontend/src/components/Watchlists.tsx` and
`src/frontend/src/components/Chatbox.tsx`.

JavaScript strings are modelled as `List Char`, JavaScript numbers as `ℚ`
(the claims checked here concern control flow, fall-back selection and
clamping, not floating-point rounding), nullable values as `Option`, and
asynchronous interleavings as explicit event traces folded over a step
function.
-/

/-! ### Symbol dialects (asxApi.ts, Dashboard.tsx, TradingViewChart.tsx)

JavaScript `String.prototype.replace(pat, '')` with a string pattern removes
only the first occurrence of `pat`; `startsWith`/`endsWith` are literal
character tests.  We embed these string primitives directly. -/

/-- `pat` is a literal prefix of the second list. -/
def isPrefixL : List Char → List Char → Bool
  | [], _ => true
  | _ :: _, [] => false
  | p :: ps, c :: cs => p = c && isPrefixL ps cs

/-- `pat` is a literal suffix of the second list (JS `endsWith`). -/
def isSuffixL (pat l : List Char) : Bool :=
  isPrefixL pat.reverse l.reverse

/-- `l` contains `pat` as a contiguous substring. -/
def containsSub (pat : List Char) : List Char → Bool
  | [] => isPrefixL pat []
  | c :: cs => isPrefixL pat (c :: cs) || containsSub pat cs

/-- JS `s.replace(pat, '')`: remove the first occurrence of `pat`, if any. -/
def removeFirstOcc (pat : List Char) : List Char → List Char
  | [] => []
  | c :: cs =>
    if isPrefixL pat (c :: cs) then (c :: cs).drop pat.length
    else c :: removeFirstOcc pat cs

/-- The exchange tag `"ASX:"`. -/
def asxTag : List Char := ['A', 'S', 'X', ':']

/-- The vendor suffix `".AX"`. -/
def axSuffix : List Char := ['.', 'A', 'X']

/-- `ASXApiService.convertToYahooSymbol` (asxApi.ts lines 29-36):
strip the first `"ASX:"` occurrence, then append `".AX"` unless the result
already ends with it. -/
def convertToYahooSymbol (symbol : List Char) : List Char :=
  if isSuffixL axSuffix (removeFirstOcc asxTag symbol) then
    removeFirstOcc asxTag symbol
  else removeFirstOcc asxTag symbol ++ axSuffix

/-- The TradingView-format conversion inside `Dashboard.selectStockForChart`
(Dashboard.tsx lines 128-136): `symbol.endsWith('.AX') ?
`ASX:${symbol.replace('.AX', '')}` : symbol`. -/
def selectStockForChartSymbol (symbol : List Char) : List Char :=
  if isSuffixL axSuffix symbol then asxTag ++ removeFirstOcc axSuffix symbol
  else symbol

/-- `TradingViewChart.getTradingViewSymbol` (TradingViewChart.tsx lines
137-139): the identity. -/
def getTradingViewSymbol (symbol : List Char) : List Char := symbol

/-- The quote-request symbol computed by `TradingViewChart.fetchStockMetrics`
(TradingViewChart.tsx lines 68-70): strip the first `"ASX:"` occurrence and
unconditionally append `".AX"`. -/
def fetchStockMetricsSymbol (symbol : List Char) : List Char :=
  removeFirstOcc asxTag symbol ++ axSuffix

/-! Concrete symbol strings used in counterexamples and witnesses. -/

def bhpChars : List Char := ['B', 'H', 'P']

def bhpAXChars : List Char := ['B', 'H', 'P', '.', 'A', 'X']

def rioAXChars : List Char := ['R', 'I', 'O', '.', 'A', 'X']

def asxBHPChars : List Char := ['A', 'S', 'X', ':', 'B', 'H', 'P']

def asxRIOChars : List Char := ['A', 'S', 'X', ':', 'R', 'I', 'O']

def doublePrefixChars : List Char :=
  ['A', 'S', 'X', ':', 'A', 'S', 'X', ':', 'B', 'H', 'P']

/-! ### Debounced search controller (Dashboard.tsx lines 110-126)

`searchStocks` clears the results synchronously for queries shorter than two
characters, otherwise sets `isSearching` and issues a request whose handler
unconditionally overwrites `searchResults` when it settles — there is no
staleness check.  A trace of user keystrokes and network settlements is
folded over the step function below. -/

/-- A search hit as produced by `asxApiService.searchStocks`
(asxApi.ts lines 110-118).  The TS field `type` is spelled `type_`. -/
structure StockSearchResult where
  symbol : String
  name : String
  exchange : String
  type_ : String
deriving DecidableEq

/-- The `searchResults` / `isSearching` state of `Dashboard`. -/
structure SearchState where
  searchResults : List StockSearchResult
  isSearching : Bool
deriving DecidableEq

/-- Events of the search controller: `issue q` is a keystroke calling
`searchStocks(q)`; `resolve q res` is the settlement of the request issued
for `q`; `reject q` is that request failing. -/
inductive SearchEvent where
  | issue (q : String)
  | resolve (q : String) (res : List StockSearchResult)
  | reject (q : String)
deriving DecidableEq

/-- One step of `Dashboard.searchStocks`: short queries clear the results and
return; otherwise the request starts; any settling response overwrites the
results (and the `finally` clears `isSearching`) with no staleness check. -/
def searchStep (s : SearchState) : SearchEvent → SearchState
  | SearchEvent.issue q =>
    if q.length < 2 then { s with searchResults := [] }
    else { s with isSearching := true }
  | SearchEvent.resolve _ res => { searchResults := res, isSearching := false }
  | SearchEvent.reject _ => { searchResults := [], isSearching := false }

/-- Run a trace of search events from the initial `Dashboard` state. -/
def runSearch (evs : List SearchEvent) : SearchState :=
  evs.foldl searchStep { searchResults := [], isSearching := false }

def queryB : String := "B"

def queryBH : String := "BH"

def queryBHP : String := "BHP"

def resultBH : List StockSearchResult :=
  [{ symbol := "BHP.AX", name := "BH Partial", exchange := "ASX", type_ := "EQUITY" }]

def resultBHP : List StockSearchResult :=
  [{ symbol := "BHP.AX", name := "BHP Group Limited", exchange := "ASX", type_ := "EQUITY" }]

/-! ### Widget lifecycle controller (TradingViewChart.tsx)

`removeWidget` (lines 142-156) tears the current handle down (the `remove()`
call may throw; the `finally` always clears the ref), and `createWidget`
(lines 216-263) first calls `removeWidget`, then constructs a fresh widget
and stores it in the ref; construction failures are caught and leave the ref
empty.  The model logs every teardown attempt and every successful
construction, identifying handles by a creation counter. -/

/-- Observable widget actions: a successful construction of handle `i` for a
chart symbol, or a teardown attempt of handle `i`. -/
inductive WAction where
  | created (i : Nat) (sym : List Char)
  | teardown (i : Nat)
deriving DecidableEq

/-- `widgetRef.current` plus a fresh-handle counter and the action log. -/
structure WState where
  widget : Option Nat
  nextId : Nat
  log : List WAction
deriving DecidableEq

/-- Initial state: no widget, empty log. -/
def winit : WState := { widget := none, nextId := 0, log := [] }

/-- `removeWidget`: if a handle is held, attempt `remove()` (throws are
swallowed) and always null the ref; otherwise do nothing. -/
def removeWidget (s : WState) : WState :=
  match s.widget with
  | none => s
  | some w =>
    { widget := none, nextId := s.nextId, log := s.log ++ [WAction.teardown w] }

/-- `createWidget`: return early when the container or the TradingView
library is unavailable (`avail = false`); otherwise tear down any existing
handle, then construct the new widget (`ctorOk = false` models the
constructor throwing, caught by the surrounding `try`). -/
def createWidget (avail ctorOk : Bool) (sym : List Char) (s : WState) : WState :=
  if avail then
    let s1 := removeWidget s
    if ctorOk then
      { widget := some s1.nextId, nextId := s1.nextId + 1,
        log := s1.log ++ [WAction.created s1.nextId sym] }
    else s1
  else s

/-- Driver events: `change` is any effect run calling `createWidget`
(instrument change, refresh click, script load, retry); `cleanup` is the
unmount cleanup calling `removeWidget`. -/
inductive WEvent where
  | change (avail ctorOk : Bool) (sym : List Char)
  | cleanup
deriving DecidableEq

def wstep (s : WState) : WEvent → WState
  | WEvent.change avail ctorOk sym => createWidget avail ctorOk sym s
  | WEvent.cleanup => removeWidget s

/-- Run a trace of widget driver events from the initial state. -/
def runWidget (evs : List WEvent) : WState := evs.foldl wstep winit

/-- Replay checker for widget logs: starting from live handle `live`, a
`created` action is legal only when no handle is live, and a `teardown`
action only for the currently live handle; returns the final live handle on
success.  A log accepted from `none` is strictly alternating and never holds
two live handles. -/
def playLog : Option Nat → List WAction → Option (Option Nat)
  | live, [] => some live
  | none, WAction.created i _ :: rest => playLog (some i) rest
  | some w, WAction.teardown i :: rest =>
    if i = w then playLog none rest else none
  | some _, WAction.created _ _ :: _ => none
  | none, WAction.teardown _ :: _ => none

def isCreated : WAction → Bool
  | WAction.created _ _ => true
  | WAction.teardown _ => false

def isTeardown : WAction → Bool
  | WAction.created _ _ => false
  | WAction.teardown _ => true

/-- Number of successful widget constructions in a log. -/
def createdCount (l : List WAction) : Nat := (l.filter isCreated).length

/-- Number of teardown attempts in a log. -/
def teardownCount (l : List WAction) : Nat := (l.filter isTeardown).length

def isChange : WEvent → Bool
  | WEvent.change _ _ _ => true
  | WEvent.cleanup => false

/-- Number of `createWidget`-triggering events in a trace. -/
def changeCount (evs : List WEvent) : Nat := (evs.filter isChange).length

/-- 1 for a live handle, 0 for none (used to balance the log counts). -/
def liveCountN : Option Nat → Nat
  | none => 0
  | some _ => 1

/-! ### Quote fetch (asxApi.ts `getStockData`, lines 39-86)

The whole body is wrapped in `try/catch { return null }`, so every throwing
path (network failure, non-OK status, missing chart data, missing
`indicators.quote[0]` making `quote.close[0]` throw, an empty `timestamp`
array making `toISOString()` throw) is modelled as returning `none`.
JS truthiness on numbers (`undefined`, `null` and `0` are falsy) drives the
`||` fall-back chains, embedded as `jsNum`. -/

/-- JS `a || fb` on a possibly-missing number: `a` if present and nonzero,
otherwise the fall-back. -/
def jsNum : Option ℚ → ℚ → ℚ
  | some v, fb => if v = 0 then fb else v
  | none, fb => fb

/-- JS `arr[0]` on an array of possibly-null numbers. -/
def headOpt : List (Option ℚ) → Option ℚ
  | [] => none
  | x :: _ => x

/-- JS truthiness of a possibly-missing number. -/
def truthyQ : Option ℚ → Bool
  | some v => if v = 0 then false else true
  | none => false

/-- `result.indicators.quote[0]` of a Yahoo chart response. -/
structure QuoteBlock where
  close : List (Option ℚ)
  volume : List (Option ℚ)
  high : List (Option ℚ)
  low : List (Option ℚ)
  open_ : List (Option ℚ)
deriving DecidableEq

/-- `result.meta` of a Yahoo chart response (all numeric fields may be
absent; `symbol` is assumed to be a string when the result is present). -/
structure MetaBlock where
  symbol : List Char
  regularMarketPrice : Option ℚ
  previousClose : Option ℚ
  chartPreviousClose : Option ℚ
  marketCap : Option ℚ
  regularMarketDayHigh : Option ℚ
  regularMarketDayLow : Option ℚ
  regularMarketOpen : Option ℚ
deriving DecidableEq

/-- One entry of `data.chart.result`.  `quote = none` models a missing
`indicators.quote[0]`; an empty `timestamp` models a missing or empty
timestamp array (either way `getStockData` ends in the `catch`). -/
structure ChartResult where
  meta : MetaBlock
  quote : Option QuoteBlock
  timestamp : List Nat
deriving DecidableEq

/-- The parsed response body; `chart = none` collapses the JS checks
`!data.chart || !data.chart.result`. -/
structure ChartBody where
  chart : Option (List ChartResult)
deriving DecidableEq

/-- Outcome of the `fetch` call in `getStockData`: a network error, a non-OK
HTTP status, or an OK response with a parsed body. -/
inductive FetchOutcome where
  | networkError
  | httpNotOk (status : Nat)
  | ok (body : ChartBody)
deriving DecidableEq

/-- The snapshot interface `ASXStockData` (asxApi.ts lines 2-15);
`lastUpdated` is the epoch timestamp serialized by `toISOString()`. -/
structure ASXStockData where
  symbol : String
  name : List Char
  currentPrice : ℚ
  changePercent : ℚ
  changeAmount : ℚ
  volume : ℚ
  marketCap : ℚ
  high : ℚ
  low : ℚ
  open_ : ℚ
  previousClose : ℚ
  lastUpdated : Nat
deriving DecidableEq

/-- `ASXApiService.getStockData`, parametrized by the outcome of its fetch.
The fall-back chains and the `!currentPrice` null-return follow lines
58-81 of asxApi.ts. -/
def getStockData (symbol : String) (out : FetchOutcome) : Option ASXStockData :=
  match out with
  | FetchOutcome.networkError => none
  | FetchOutcome.httpNotOk _ => none
  | FetchOutcome.ok body =>
    match body.chart with
    | none => none
    | some chartResult =>
      match chartResult with
      | [] => none
      | result :: _ =>
        match result.quote with
        | none => none
        | some quote =>
          match result.timestamp with
          | [] => none
          | timestamp :: _ =>
            match result.meta.regularMarketPrice with
            | none => none
            | some currentPrice =>
              if currentPrice = 0 then none
              else
                some
                  { symbol := symbol
                    name := removeFirstOcc axSuffix result.meta.symbol
                    currentPrice := currentPrice
                    changePercent :=
                      if jsNum result.meta.previousClose
                          (jsNum result.meta.chartPreviousClose
                            (jsNum (headOpt quote.close) currentPrice)) = 0 then 0
                      else
                        (currentPrice -
                            jsNum result.meta.previousClose
                              (jsNum result.meta.chartPreviousClose
                                (jsNum (headOpt quote.close) currentPrice))) /
                          jsNum result.meta.previousClose
                            (jsNum result.meta.chartPreviousClose
                              (jsNum (headOpt quote.close) currentPrice)) * 100
                    changeAmount :=
                      currentPrice -
                        jsNum result.meta.previousClose
                          (jsNum result.meta.chartPreviousClose
                            (jsNum (headOpt quote.close) currentPrice))
                    volume := jsNum (headOpt quote.volume) 0
                    marketCap := jsNum result.meta.marketCap 0
                    high := jsNum result.meta.regularMarketDayHigh
                      (jsNum (headOpt quote.high) currentPrice)
                    low := jsNum result.meta.regularMarketDayLow
                      (jsNum (headOpt quote.low) currentPrice)
                    open_ := jsNum result.meta.regularMarketOpen
                      (jsNum (headOpt quote.open_) currentPrice)
                    previousClose :=
                      jsNum result.meta.previousClose
                        (jsNum result.meta.chartPreviousClose
                          (jsNum (headOpt quote.close) currentPrice))
                    lastUpdated := timestamp }

/-- The exact condition under which `getStockData` returns `null`. -/
def getStockDataFails (out : FetchOutcome) : Bool :=
  match out with
  | FetchOutcome.networkError => true
  | FetchOutcome.httpNotOk _ => true
  | FetchOutcome.ok body =>
    match body.chart with
    | none => true
    | some [] => true
    | some (result :: _) =>
      result.quote.isNone || result.timestamp.isEmpty ||
        !truthyQ result.meta.regularMarketPrice

/-- Builds the OK outcome whose first chart result has the given meta block,
a present quote block and a nonempty timestamp array. -/
def mkChartOut (meta : MetaBlock) (qb : QuoteBlock) (t : Nat) (ts : List Nat)
    (rest : List ChartResult) : FetchOutcome :=
  FetchOutcome.ok
    { chart := some ({ meta := meta, quote := some qb, timestamp := t :: ts } :: rest) }

def bhpSym : String := "BHP.AX"

def rioSym : String := "RIO.AX"

/-- A well-formed quote block used in concrete scenarios. -/
def sampleQuote : QuoteBlock :=
  { close := [some 40], volume := [some 1000], high := [some 43],
    low := [some 39], open_ := [some 40] }

/-- Meta block whose `regularMarketPrice` is present but zero. -/
def metaZero : MetaBlock :=
  { symbol := bhpAXChars, regularMarketPrice := some 0,
    previousClose := some 40, chartPreviousClose := none,
    marketCap := some 1000000, regularMarketDayHigh := some 43,
    regularMarketDayLow := some 39, regularMarketOpen := some 40 }

def resultZero : ChartResult :=
  { meta := metaZero, quote := some sampleQuote, timestamp := [1700000000] }

def outZero : FetchOutcome := FetchOutcome.ok { chart := some [resultZero] }

/-- A fully populated successful meta block. -/
def metaGood : MetaBlock :=
  { symbol := bhpAXChars, regularMarketPrice := some 42,
    previousClose := some 40, chartPreviousClose := none,
    marketCap := some 1000000, regularMarketDayHigh := some 43,
    regularMarketDayLow := some 39, regularMarketOpen := some 41 }

def resultGood : ChartResult :=
  { meta := metaGood, quote := some sampleQuote, timestamp := [1700000000] }

def outGood : FetchOutcome := FetchOutcome.ok { chart := some [resultGood] }

/-- The snapshot `getStockData` produces for `outGood`. -/
def goodSnap : ASXStockData :=
  { symbol := bhpSym, name := bhpChars, currentPrice := 42,
    changePercent := 5, changeAmount := 2, volume := 1000,
    marketCap := 1000000, high := 43, low := 39, open_ := 41,
    previousClose := 40, lastUpdated := 1700000000 }

/-! ### Watchlist refresh cycle (Watchlists.tsx lines 49-95)

`fetchRealTimeData` maps every watchlist and every item through an
independent `getStockData` call; a failed or null fetch leaves that item
untouched (`return item`), a successful one spreads the fresh snapshot over
it.  The per-item fetch result is abstracted as a function from symbols. -/

/-- The `WatchlistItem` interface (watchlistApi service), nullable quote
fields; the refresh writes the field spelled `open` in TS (here `open_`). -/
structure WatchlistItem where
  id : Nat
  symbol : String
  name : String
  currentPrice : Option ℚ
  changePercent : Option ℚ
  changeAmount : Option ℚ
  volume : Option ℚ
  marketCap : Option ℚ
  high : Option ℚ
  low : Option ℚ
  open_ : Option ℚ
  previousClose : Option ℚ
  lastUpdated : Nat
deriving DecidableEq

/-- The spread `{ ...item, currentPrice: stockData.currentPrice, ... }`
(Watchlists.tsx lines 62-74): every quote field is replaced, identity
fields (`id`, `symbol`, `name`) are retained. -/
def applySnapshot (item : WatchlistItem) (stockData : ASXStockData) : WatchlistItem :=
  { item with
    currentPrice := some stockData.currentPrice
    changePercent := some stockData.changePercent
    changeAmount := some stockData.changeAmount
    volume := some stockData.volume
    marketCap := some stockData.marketCap
    high := some stockData.high
    low := some stockData.low
    open_ := some stockData.open_
    previousClose := some stockData.previousClose
    lastUpdated := stockData.lastUpdated }

/-- One item's update inside the cycle: `getStockData` succeeding yields the
spread; a null result or a thrown-and-caught error returns the item as-is. -/
def updateItem (fetch : String → Option ASXStockData) (item : WatchlistItem) :
    WatchlistItem :=
  match fetch item.symbol with
  | some stockData => applySnapshot item stockData
  | none => item

/-- The per-watchlist fan-out over `watchlist.items`. -/
def fetchRealTimeDataItems (fetch : String → Option ASXStockData)
    (items : List WatchlistItem) : List WatchlistItem :=
  items.map (updateItem fetch)

/-- A watchlist; `items` may be absent (`if (!watchlist.items) return`). -/
structure Watchlist where
  id : Nat
  name : String
  items : Option (List WatchlistItem)

/-- The full `fetchRealTimeData` fan-out over all watchlists. -/
def fetchRealTimeData (fetch : String → Option ASXStockData)
    (watchlists : List Watchlist) : List Watchlist :=
  watchlists.map fun w =>
    match w.items with
    | none => w
    | some its => { w with items := some (fetchRealTimeDataItems fetch its) }

/-- Snapshot returned for non-BHP symbols in the refresh witness. -/
def sampleStockData : ASXStockData :=
  { symbol := rioSym, name := ['R', 'I', 'O'], currentPrice := 120,
    changePercent := 2, changeAmount := 1, volume := 50000,
    marketCap := 2000000, high := 121, low := 118, open_ := 119,
    previousClose := 119, lastUpdated := 1700000000 }

def bhpItem : WatchlistItem :=
  { id := 1, symbol := bhpSym, name := "BHP Group Limited",
    currentPrice := some 40, changePercent := some 1, changeAmount := some 1,
    volume := some 100, marketCap := some 1000, high := some 41,
    low := some 39, open_ := some 40, previousClose := some 39,
    lastUpdated := 100 }

def rioItem : WatchlistItem :=
  { id := 2, symbol := rioSym, name := "Rio Tinto Limited",
    currentPrice := none, changePercent := none, changeAmount := none,
    volume := none, marketCap := none, high := none,
    low := none, open_ := none, previousClose := none,
    lastUpdated := 100 }

def wItems : List WatchlistItem := [bhpItem, rioItem]

/-- Concrete cycle in which exactly the BHP fetch fails. -/
def wFetch : String → Option ASXStockData :=
  fun s => if s = bhpSym then none else some sampleStockData

/-! ### Quote polling loop (Watchlists.tsx lines 49-95, `setInterval`)

Every 30-second tick runs `fetchRealTimeData`, which immediately issues one
`getStockData` per item of the working set — with no check for fetches still
in flight.  The trace model logs each issued fetch as pending (tagged with
the tick generation for bookkeeping; the code itself has no such token) and
removes it when it settles.  Snapshot merging is the pure core modelled by
`fetchRealTimeDataItems` above. -/

inductive SyncEvent where
  | tick
  | settle (g : Nat) (sym : String)
deriving DecidableEq

structure SyncState where
  pending : List (Nat × String)
  nextGen : Nat
deriving DecidableEq

/-- Remove the first matching pending fetch. -/
def erasePending (p : Nat × String) : List (Nat × String) → List (Nat × String)
  | [] => []
  | q :: rest => if q = p then rest else q :: erasePending p rest

/-- One scheduler step: a tick unconditionally fans out a fetch per working
set entry; a settlement retires its pending fetch. -/
def syncStep (ws : List String) (s : SyncState) : SyncEvent → SyncState
  | SyncEvent.tick =>
    { pending := s.pending ++ ws.map (fun sym => (s.nextGen, sym)),
      nextGen := s.nextGen + 1 }
  | SyncEvent.settle g sym =>
    { s with pending := erasePending (g, sym) s.pending }

def runSync (ws : List String) (evs : List SyncEvent) : SyncState :=
  evs.foldl (syncStep ws) { pending := [], nextGen := 0 }

/-- Number of in-flight fetches for one symbol. -/
def countPendingFor (pending : List (Nat × String)) (sym : String) : Nat :=
  (pending.filter fun p => p.2 == sym).length

/-- Occurrences of a symbol in the working set. -/
def occCount (sym : String) : List String → Nat
  | [] => 0
  | s :: rest => (if s = sym then 1 else 0) + occCount sym rest

def wsBHP : List String := [bhpSym]

/-! ### Resizable pane controller (Dashboard.tsx `useResizable`, lines 29-43)

During an active drag, `resize` projects the pointer onto the container's
bounding box on the configured axis, scales to a percentage, and clamps with
`Math.max(minSize, Math.min(maxSize, newSize))`. -/

/-- The pane size computed by `resize` for a pointer event, given the
container's live bounding box. -/
def resizeSize (isVertical : Bool)
    (minSize maxSize clientX clientY left top width height : ℚ) : ℚ :=
  max minSize (min maxSize
    (if isVertical then (clientY - top) / height * 100
    else (clientX - left) / width * 100))

/-! ### Chat session store (Chatbox.tsx)

`localStorage` is an association list from keys to serialized threads.  One
user-visible step is modelled at effect-cascade granularity: on a model
switch the load effect (declared first) reads the new key from the pristine
store, the save effect then writes the still-current messages under the new
key, and the re-render triggered by `setMessages` runs the save effect once
more, persisting the loaded thread. -/

inductive MsgSender where
  | user
  | ai
deriving DecidableEq

/-- A chat message (`Date` timestamps modelled as epoch numbers). -/
structure Msg where
  id : Nat
  text : String
  sender : MsgSender
  timestamp : Nat
deriving DecidableEq

/-- `getHistoryKey` (Chatbox.tsx line 24). -/
def getHistoryKey (model : String) : String := "chat_history_" ++ model

def lookupEntry (st : List (String × List Msg)) (k : String) : Option (List Msg) :=
  match st with
  | [] => none
  | (k1, v) :: rest => if k1 = k then some v else lookupEntry rest k

/-- `localStorage.setItem`. -/
def setEntry (st : List (String × List Msg)) (k : String) (v : List Msg) :
    List (String × List Msg) :=
  match st with
  | [] => [(k, v)]
  | (k1, v1) :: rest =>
    if k1 = k then (k, v) :: rest else (k1, v1) :: setEntry rest k v

/-- `localStorage.removeItem`. -/
def removeEntry (st : List (String × List Msg)) (k : String) :
    List (String × List Msg) :=
  match st with
  | [] => []
  | (k1, v1) :: rest =>
    if k1 = k then removeEntry rest k else (k1, v1) :: removeEntry rest k

/-- The seeded greeting message (id 1, sender ai; the literal greeting text
is abbreviated here, its content plays no role). -/
def greetingMsg (now : Nat) : Msg :=
  { id := 1, text := "Hello. I am your AI portfolio assistant.",
    sender := MsgSender.ai, timestamp := now }

/-- `Chatbox` component state: the selected model, the in-memory messages,
and the persisted store. -/
structure ChatState where
  selectedModel : String
  messages : List Msg
  storage : List (String × List Msg)
deriving DecidableEq

/-- The load effect's read: the saved thread for a model, or the seeded
greeting when none is stored. -/
def loadedThread (storage : List (String × List Msg)) (model : String)
    (now : Nat) : List Msg :=
  match lookupEntry storage (getHistoryKey model) with
  | some t => t
  | none => [greetingMsg now]

/-- Appending one message: `setMessages(prev => [...prev, msg])` followed by
the save effect persisting the whole thread under the current model's key. -/
def appendAndSave (s : ChatState) (msg : Msg) : ChatState :=
  { s with
    messages := s.messages ++ [msg]
    storage := setEntry s.storage (getHistoryKey s.selectedModel)
      (s.messages ++ [msg]) }

/-- `clearHistory` (lines 124-134): remove the current model's key, seed the
greeting, and let the save effect persist the seeded thread. -/
def clearHistoryOp (now : Nat) (s : ChatState) : ChatState :=
  { s with
    messages := [greetingMsg now]
    storage := setEntry (removeEntry s.storage (getHistoryKey s.selectedModel))
      (getHistoryKey s.selectedModel) [greetingMsg now] }

/-- Switching the model: the load effect reads the new key from the pristine
store; the save effect (same commit) writes the old messages under the new
key; the `setMessages` re-render runs the save effect again with the loaded
thread. -/
def switchModel (now : Nat) (s : ChatState) (newModel : String) : ChatState :=
  { selectedModel := newModel
    messages := loadedThread s.storage newModel now
    storage := setEntry
      (setEntry s.storage (getHistoryKey newModel) s.messages)
      (getHistoryKey newModel) (loadedThread s.storage newModel now) }

def modelA : String := "llama3-70b-8192"

def modelB : String := "qwen-2.5-32b"

def msgA : Msg :=
  { id := 2, text := "How is BHP doing", sender := MsgSender.user, timestamp := 5 }

def msgB : Msg :=
  { id := 3, text := "Tell me about RIO", sender := MsgSender.user, timestamp := 7 }

def threadB : List Msg := [greetingMsg 0, msgB]

def chatStart : ChatState :=
  { selectedModel := modelA
    messages := [greetingMsg 0]
    storage := [(getHistoryKey modelA, [greetingMsg 0]),
      (getHistoryKey modelB, threadB)] }

theorem isPrefixL_append_self (p t : List Char) : isPrefixL p (p ++ t) = true := by
  induction p with
  | nil => rfl
  | cons c cs ih => simp [isPrefixL, ih]

theorem isPrefixL_append_of_isPrefixL (p l t : List Char)
    (h : isPrefixL p l = true) : isPrefixL p (l ++ t) = true := by
  induction p generalizing l with
  | nil => rfl
  | cons c cs ih =>
    cases l with
    | nil => simp [isPrefixL] at h
    | cons d ds =>
      simp only [isPrefixL, Bool.and_eq_true, decide_eq_true_eq] at h
      simp [isPrefixL, h.1, ih ds h.2]

theorem containsSub_append_of_containsSub (p l t : List Char)
    (h : containsSub p l = true) : containsSub p (l ++ t) = true := by
  induction l with
  | nil =>
    cases p with
    | nil => cases t <;> simp [containsSub, isPrefixL]
    | cons c cs => simp [containsSub, isPrefixL] at h
  | cons c cs ih =>
    simp only [containsSub, Bool.or_eq_true] at h
    simp only [List.cons_append, containsSub, Bool.or_eq_true]
    rcases h with h | h
    · exact Or.inl (isPrefixL_append_of_isPrefixL p (c :: cs) t h)
    · exact Or.inr (ih h)

theorem removeFirstOcc_of_not_containsSub (p l : List Char)
    (h : containsSub p l = false) : removeFirstOcc p l = l := by
  induction l with
  | nil => rfl
  | cons c cs ih =>
    simp only [containsSub, Bool.or_eq_false_iff] at h
    simp [removeFirstOcc, h.1, ih h.2]

theorem isSuffixL_append_self (p t : List Char) : isSuffixL p (t ++ p) = true := by
  simp only [isSuffixL, List.reverse_append]
  exact isPrefixL_append_self p.reverse t.reverse

/-- Every output of `convertToYahooSymbol` ends with `".AX"` (shared helper). -/
theorem convertToYahooSymbol_endsAX (s : List Char) :
    isSuffixL axSuffix (convertToYahooSymbol s) = true := by
  unfold convertToYahooSymbol
  by_cases h : isSuffixL axSuffix (removeFirstOcc asxTag s) = true
  · simp [h]
  · simp only [Bool.not_eq_true] at h
    simp [h, isSuffixL_append_self]

theorem removeFirstOcc_cons_append (c : Char) (ps t : List Char) :
    removeFirstOcc (c :: ps) ((c :: ps) ++ t) = t := by
  have hshape : (c :: ps) ++ t = c :: (ps ++ t) := rfl
  rw [hshape]
  have hpre : isPrefixL (c :: ps) (c :: (ps ++ t)) = true := by
    rw [← hshape]; exact isPrefixL_append_self (c :: ps) t
  simp only [removeFirstOcc, hpre, if_true]
  rw [← hshape]
  exact List.drop_left (c :: ps) t

/-- C1 counterexample: on the doubly-prefixed input `"ASX:ASX:BHP"`, applying
`convertToYahooSymbol` twice differs from applying it once
(`"ASX:BHP.AX"` versus `"BHP.AX"`), so normalization is not idempotent on
every symbol string. -/
theorem convertToYahooSymbol_idempotence_cex :
    convertToYahooSymbol (convertToYahooSymbol doublePrefixChars) ≠
      convertToYahooSymbol doublePrefixChars := by decide

/-- C1 (amended): normalization is idempotent on every symbol whose normalized
form contains no further `"ASX:"` occurrence (in particular on all three
well-formed dialects); the `".AX"` suffix is never double-appended; and for
every canonical ticker `t` (no `"ASX:"` occurrence, not `".AX"`-suffixed) the
three derived forms `t`, `"ASX:" ++ t` and `t ++ ".AX"` all normalize to the
same vendor form `t ++ ".AX"`. -/
theorem convertToYahooSymbol_idempotence_amended (s t : List Char)
    (hs : containsSub asxTag (convertToYahooSymbol s) = false)
    (ht : containsSub asxTag (t ++ axSuffix) = false)
    (htx : isSuffixL axSuffix t = false) :
    convertToYahooSymbol (convertToYahooSymbol s) = convertToYahooSymbol s
    ∧ convertToYahooSymbol t = t ++ axSuffix
    ∧ convertToYahooSymbol (asxTag ++ t) = t ++ axSuffix
    ∧ convertToYahooSymbol (t ++ axSuffix) = t ++ axSuffix := by
  have ht' : containsSub asxTag t = false := by
    by_contra hc
    simp only [Bool.not_eq_false] at hc
    rw [containsSub_append_of_containsSub asxTag t axSuffix hc] at ht
    exact Bool.noConfusion ht
  refine ⟨?_, ?_, ?_, ?_⟩
  · have h2 := convertToYahooSymbol_endsAX s
    generalize hgen : convertToYahooSymbol s = y at hs h2 ⊢
    unfold convertToYahooSymbol
    rw [removeFirstOcc_of_not_containsSub asxTag y hs, h2]
    simp
  · unfold convertToYahooSymbol
    rw [removeFirstOcc_of_not_containsSub asxTag t ht', htx]
    simp
  · have hr : removeFirstOcc asxTag (asxTag ++ t) = t := by
      have ha : asxTag = 'A' :: ['S', 'X', ':'] := rfl
      rw [ha]
      exact removeFirstOcc_cons_append 'A' ['S', 'X', ':'] t
    unfold convertToYahooSymbol
    rw [hr, htx]
    simp
  · unfold convertToYahooSymbol
    rw [removeFirstOcc_of_not_containsSub asxTag _ ht,
      isSuffixL_append_self]
    simp

theorem convertToYahooSymbol_idempotence_amended_witness :
    (containsSub asxTag (convertToYahooSymbol bhpChars) = false
      ∧ containsSub asxTag (bhpChars ++ axSuffix) = false
      ∧ isSuffixL axSuffix bhpChars = false)
    ∧ (convertToYahooSymbol (convertToYahooSymbol bhpChars) =
        convertToYahooSymbol bhpChars
      ∧ convertToYahooSymbol bhpChars = bhpChars ++ axSuffix
      ∧ convertToYahooSymbol (asxTag ++ bhpChars) = bhpChars ++ axSuffix
      ∧ convertToYahooSymbol (bhpChars ++ axSuffix) = bhpChars ++ axSuffix) :=
  ⟨⟨by decide, by decide, by decide⟩,
    convertToYahooSymbol_idempotence_amended bhpChars bhpChars
      (by decide) (by decide) (by decide)⟩

/-- C7 counterexample: on empty input the normalizer returns `".AX"` — the
same value it returns on the legitimate already-suffixed input `".AX"` — so
there is no distinguished "unrecognized" sentinel for empty/malformed input. -/
theorem normalizer_sentinel_cex :
    convertToYahooSymbol [] = axSuffix
    ∧ convertToYahooSymbol [] = convertToYahooSymbol axSuffix := by
  exact ⟨by decide, by decide⟩

/-- C7 (amended): normalization is a total function that never throws, but it
does not detect empty or malformed input: every input, including the empty
string, is mapped to an ordinary `".AX"`-suffixed symbol (empty input yields
`".AX"` itself), not an "unrecognized" sentinel. -/
theorem normalizer_total_suffixed (s : List Char) :
    isSuffixL axSuffix (convertToYahooSymbol s) = true
    ∧ convertToYahooSymbol [] = axSuffix :=
  ⟨convertToYahooSymbol_endsAX s, by decide⟩

/-- C2 counterexample: queries `"BH"` then `"BHP"` are issued; the `"BHP"`
response arrives first, then the stale `"BH"` response.  The final
`searchResults` state is the stale `"BH"` result, not the last query's
result, because `searchStocks` applies every settling response
unconditionally. -/
theorem search_last_query_wins_cex :
    (runSearch [SearchEvent.issue queryBH, SearchEvent.issue queryBHP,
      SearchEvent.resolve queryBHP resultBHP,
      SearchEvent.resolve queryBH resultBH]).searchResults = resultBH
    ∧ resultBH ≠ resultBHP := by
  exact ⟨by decide, by decide⟩

/-- C2 (amended): search results are applied in response-arrival order, not
query-arrival order: whatever response settles last overwrites
`searchResults`, even if it belongs to an earlier query; queries shorter
than two characters clear the results synchronously and issue no request. -/
theorem search_response_arrival_order (evs : List SearchEvent)
    (q : String) (res : List StockSearchResult) (q2 : String)
    (h : q2.length < 2) :
    (runSearch (evs ++ [SearchEvent.resolve q res])).searchResults = res
    ∧ (runSearch (evs ++ [SearchEvent.issue q2])).searchResults = [] := by
  unfold runSearch
  rw [List.foldl_append, List.foldl_append]
  constructor
  · simp [searchStep]
  · simp [searchStep, h]

theorem search_response_arrival_order_witness :
    queryB.length < 2
    ∧ ((runSearch ([SearchEvent.issue queryBHP]
          ++ [SearchEvent.resolve queryBHP resultBHP])).searchResults = resultBHP
      ∧ (runSearch ([SearchEvent.issue queryBHP]
          ++ [SearchEvent.issue queryB])).searchResults = []) :=
  ⟨by decide,
    search_response_arrival_order [SearchEvent.issue queryBHP]
      queryBHP resultBHP queryB (by decide)⟩

theorem playLog_append (l1 l2 : List WAction) (x : Option Nat) :
    playLog x (l1 ++ l2) =
      match playLog x l1 with
      | some live => playLog live l2
      | none => none := by
  induction l1 generalizing x with
  | nil => simp [playLog]
  | cons a rest ih =>
    cases x with
    | none =>
      cases a with
      | created i sym => simp [playLog, ih]
      | teardown i => simp [playLog]
    | some w =>
      cases a with
      | created i sym => simp [playLog]
      | teardown i =>
        by_cases h : i = w
        · simp [playLog, h, ih]
        · simp [playLog, h]

theorem playLog_counts (l : List WAction) (x y : Option Nat)
    (h : playLog x l = some y) :
    teardownCount l + liveCountN y = createdCount l + liveCountN x := by
  induction l generalizing x with
  | nil =>
    simp only [playLog, Option.some.injEq] at h
    rw [h]
    simp [teardownCount, createdCount, List.filter]
  | cons a rest ih =>
    cases x with
    | none =>
      cases a with
      | created i sym =>
        simp only [playLog] at h
        have := ih (some i) h
        simp only [createdCount, teardownCount, List.filter, isCreated,
          isTeardown, List.length_cons, liveCountN] at this ⊢
        omega
      | teardown i => simp [playLog] at h
    | some w =>
      cases a with
      | created i sym => simp [playLog] at h
      | teardown i =>
        by_cases hi : i = w
        · simp only [playLog, hi, if_true] at h
          have := ih none h
          simp only [createdCount, teardownCount, List.filter, isCreated,
            isTeardown, List.length_cons, liveCountN] at this ⊢
          omega
        · simp [playLog, hi] at h

theorem removeWidget_widget (s : WState) : (removeWidget s).widget = none := by
  cases h : s.widget <;> simp [removeWidget, h]

theorem removeWidget_inv (s : WState)
    (h : playLog none s.log = some s.widget) :
    playLog none (removeWidget s).log = some none := by
  cases hw : s.widget with
  | none => rw [hw] at h; simp [removeWidget, hw, h]
  | some w =>
    rw [hw] at h
    simp only [removeWidget, hw]
    rw [playLog_append, h]
    simp [playLog]

theorem removeWidget_createdCount (s : WState) :
    createdCount (removeWidget s).log = createdCount s.log := by
  cases hw : s.widget with
  | none => simp [removeWidget, hw]
  | some w =>
    simp [removeWidget, hw, createdCount, List.filter_append, isCreated]

theorem createWidget_inv (avail ctorOk : Bool) (sym : List Char) (s : WState)
    (h : playLog none s.log = some s.widget) :
    playLog none (createWidget avail ctorOk sym s).log =
      some (createWidget avail ctorOk sym s).widget := by
  cases avail with
  | false => exact h
  | true =>
    have h1 := removeWidget_inv s h
    cases ctorOk with
    | false =>
      show playLog none (removeWidget s).log = some (removeWidget s).widget
      rw [removeWidget_widget]
      exact h1
    | true =>
      show playLog none
          ((removeWidget s).log ++ [WAction.created (removeWidget s).nextId sym]) =
        some (some (removeWidget s).nextId)
      rw [playLog_append, h1]
      simp [playLog]

theorem createWidget_createdCount (avail ctorOk : Bool) (sym : List Char)
    (s : WState) :
    createdCount (createWidget avail ctorOk sym s).log ≤
      createdCount s.log + 1 := by
  cases avail with
  | false =>
    show createdCount s.log ≤ createdCount s.log + 1
    omega
  | true =>
    cases ctorOk with
    | false =>
      show createdCount (removeWidget s).log ≤ createdCount s.log + 1
      rw [removeWidget_createdCount]
      omega
    | true =>
      have happ : createdCount
          ((removeWidget s).log ++ [WAction.created (removeWidget s).nextId sym]) =
          createdCount (removeWidget s).log + 1 := by
        simp [createdCount, List.filter_append, isCreated]
      show createdCount
          ((removeWidget s).log ++ [WAction.created (removeWidget s).nextId sym]) ≤
        createdCount s.log + 1
      rw [happ, removeWidget_createdCount]

theorem wrun_inv (evs : List WEvent) (s : WState)
    (h : playLog none s.log = some s.widget) :
    playLog none (evs.foldl wstep s).log = some (evs.foldl wstep s).widget
    ∧ createdCount (evs.foldl wstep s).log ≤
        createdCount s.log + changeCount evs := by
  induction evs generalizing s with
  | nil => exact ⟨h, by simp [changeCount]⟩
  | cons e rest ih =>
    have hstep : playLog none (wstep s e).log = some (wstep s e).widget := by
      cases e with
      | change avail ctorOk sym => exact createWidget_inv avail ctorOk sym s h
      | cleanup =>
        show playLog none (removeWidget s).log = some (removeWidget s).widget
        rw [removeWidget_widget]
        exact removeWidget_inv s h
    have hcount : createdCount (wstep s e).log ≤
        createdCount s.log + (if isChange e then 1 else 0) := by
      cases e with
      | change avail ctorOk sym =>
        simpa [isChange] using createWidget_createdCount avail ctorOk sym s
      | cleanup =>
        simp [wstep, isChange, removeWidget_createdCount]
    have hrest := ih (wstep s e) hstep
    refine ⟨hrest.1, ?_⟩
    have hchange : changeCount (e :: rest) =
        (if isChange e then 1 else 0) + changeCount rest := by
      simp only [changeCount, List.filter_cons]
      cases hc : isChange e <;> simp [hc] <;> omega
    simp only [List.foldl_cons] at *
    omega

/-- C3: for every trace of instrument changes, refresh requests and unmount
cleanups, the widget action log replays successfully from the empty handle —
so creations and teardowns strictly alternate, each teardown targets exactly
the previously created handle, a creation never follows another creation
without an intervening teardown, and at most one handle is live at any time
(the final live handle is exactly `widgetRef.current`); moreover there are
at most as many teardown attempts as creations, and at most one creation per
`createWidget`-triggering event. -/
theorem widget_lifecycle_alternation (evs : List WEvent) :
    playLog none (runWidget evs).log = some (runWidget evs).widget
    ∧ teardownCount (runWidget evs).log ≤ createdCount (runWidget evs).log
    ∧ createdCount (runWidget evs).log ≤ changeCount evs := by
  have h0 : playLog none winit.log = some winit.widget := by
    simp [winit, playLog]
  have h := wrun_inv evs winit h0
  refine ⟨h.1, ?_, ?_⟩
  · have hc := playLog_counts (runWidget evs).log none (runWidget evs).widget h.1
    simp only [liveCountN] at hc
    cases hw : (runWidget evs).widget <;> rw [hw] at hc <;>
      simp only [liveCountN] at hc <;> omega
  · simpa [winit, createdCount] using h.2

/-- C8 counterexample: selecting the search result `"BHP.AX"` stores the
exchange-prefixed `"ASX:BHP"` in the selected-stock state, not the canonical
bare ticker `"BHP"` that the claim asserts. -/
theorem instrument_switch_selected_cex :
    selectStockForChartSymbol bhpAXChars = asxBHPChars
    ∧ selectStockForChartSymbol bhpAXChars ≠ bhpChars := by
  exact ⟨by decide, by decide⟩

/-- C8 (amended): selecting `"BHP.AX"` sets the selected state to the
exchange-prefixed form `"ASX:BHP"` (not the bare canonical ticker); the
chart widget is created with symbol `"ASX:BHP"`; the metrics quote request
targets `"BHP.AX"`; and switching to `"RIO.AX"` tears the BHP widget down
exactly once before the RIO widget is created. -/
theorem instrument_switch_scenario :
    selectStockForChartSymbol bhpAXChars = asxBHPChars
    ∧ getTradingViewSymbol (selectStockForChartSymbol bhpAXChars) = asxBHPChars
    ∧ fetchStockMetricsSymbol (selectStockForChartSymbol bhpAXChars) = bhpAXChars
    ∧ (runWidget
        [WEvent.change true true (selectStockForChartSymbol bhpAXChars),
          WEvent.change true true (selectStockForChartSymbol rioAXChars)]).log =
      [WAction.created 0 asxBHPChars, WAction.teardown 0,
        WAction.created 1 asxRIOChars] := by
  exact ⟨by decide, by decide, by decide, by decide⟩

/-- C4: inside one refresh cycle the items are updated pointwise and
independently: the result has the same length, an item whose fetch fails
(returns `null` or throws) keeps its previous snapshot unchanged, and every
item whose fetch succeeds is updated from its own fetch result. -/
theorem refresh_isolation (fetch : String → Option ASXStockData)
    (items : List WatchlistItem) (i : Nat) (h : i < items.length) :
    (fetchRealTimeDataItems fetch items).length = items.length
    ∧ (fetch (items.get ⟨i, h⟩).symbol = none →
        (fetchRealTimeDataItems fetch items)[i]? = some (items.get ⟨i, h⟩))
    ∧ ∀ d, fetch (items.get ⟨i, h⟩).symbol = some d →
        (fetchRealTimeDataItems fetch items)[i]? =
          some (applySnapshot (items.get ⟨i, h⟩) d) := by
  have hmap : (fetchRealTimeDataItems fetch items)[i]? =
      (items[i]?).map (updateItem fetch) := by
    simp [fetchRealTimeDataItems]
  have hget : items[i]? = some (items.get ⟨i, h⟩) := by
    simp [List.getElem?_eq_getElem h]
  refine ⟨by simp [fetchRealTimeDataItems], ?_, ?_⟩
  · intro hf
    rw [hmap, hget]
    simp only [List.get_eq_getElem] at hf
    simp [updateItem, hf]
  · intro d hf
    rw [hmap, hget]
    simp only [List.get_eq_getElem] at hf
    simp [updateItem, hf]

theorem refresh_isolation_witness :
    0 < wItems.length
    ∧ ((fetchRealTimeDataItems wFetch wItems).length = wItems.length
      ∧ (wFetch (wItems.get ⟨0, by decide⟩).symbol = none →
          (fetchRealTimeDataItems wFetch wItems)[0]? =
            some (wItems.get ⟨0, by decide⟩))
      ∧ ∀ d, wFetch (wItems.get ⟨0, by decide⟩).symbol = some d →
          (fetchRealTimeDataItems wFetch wItems)[0]? =
            some (applySnapshot (wItems.get ⟨0, by decide⟩) d)) :=
  ⟨by decide, refresh_isolation wFetch wItems 0 (by decide)⟩

theorem countPendingFor_append (p1 p2 : List (Nat × String)) (sym : String) :
    countPendingFor (p1 ++ p2) sym =
      countPendingFor p1 sym + countPendingFor p2 sym := by
  simp [countPendingFor, List.filter_append]

theorem countPendingFor_map (ws : List String) (g : Nat) (sym : String) :
    countPendingFor (ws.map fun s => (g, s)) sym = occCount sym ws := by
  induction ws with
  | nil => rfl
  | cons a rest ih =>
    by_cases ha : a = sym
    · simp only [List.map_cons, countPendingFor, List.filter_cons] at *
      simp [ha, occCount, ih]
      omega
    · simp only [List.map_cons, countPendingFor, List.filter_cons] at *
      simp [ha, occCount, ih]

theorem runSync_ticks (ws : List String) (sym : String) :
    ∀ (k : Nat) (s : SyncState),
      countPendingFor
          ((List.replicate k SyncEvent.tick).foldl (syncStep ws) s).pending sym =
        countPendingFor s.pending sym + k * occCount sym ws := by
  intro k
  induction k with
  | zero => intro s; simp [countPendingFor]
  | succ k ih =>
    intro s
    rw [List.replicate_succ, List.foldl_cons, ih]
    have hstep : countPendingFor (syncStep ws s SyncEvent.tick).pending sym =
        countPendingFor s.pending sym + occCount sym ws := by
      show countPendingFor (s.pending ++ ws.map fun sym => (s.nextGen, sym)) sym =
        countPendingFor s.pending sym + occCount sym ws
      rw [countPendingFor_append, countPendingFor_map]
    rw [hstep, Nat.succ_mul]
    omega

/-- C5 counterexample: with working set `["BHP.AX"]`, two timer ticks with no
settlement in between leave two in-flight fetches for the same instrument —
the second refresh cycle starts before the first has settled, so refresh is
not serialized and no pending-refresh short-circuit exists. -/
theorem refresh_overlap_cex :
    ¬ countPendingFor
        (runSync wsBHP [SyncEvent.tick, SyncEvent.tick]).pending bhpSym ≤ 1 := by
  decide

/-- C5 (amended): every timer tick unconditionally starts a full fan-out of
quote fetches regardless of fetches still in flight: after `k` ticks with no
settlements there are exactly `k` pending fetches per occurrence of an
instrument in the working set; nothing serializes cycles or short-circuits a
new refresh on a pending one. -/
theorem refresh_tick_fanout (ws : List String) (sym : String) (k : Nat) :
    countPendingFor (runSync ws (List.replicate k SyncEvent.tick)).pending sym =
      k * occCount sym ws := by
  have h := runSync_ticks ws sym k { pending := [], nextGen := 0 }
  simpa [runSync, countPendingFor] using h

theorem clampPin_low (minSize maxSize ns : ℚ) (h0 : 0 ≤ minSize)
    (h1 : minSize ≤ maxSize) (hns : ns ≤ 0) :
    max minSize (min maxSize ns) = minSize := by
  have hle : ns ≤ minSize := le_trans hns h0
  rw [min_eq_right (le_trans hle h1), max_eq_left hle]

theorem clampPin_high (minSize maxSize ns : ℚ) (h1 : minSize ≤ maxSize)
    (h2 : maxSize ≤ 100) (hns : 100 ≤ ns) :
    max minSize (min maxSize ns) = maxSize := by
  rw [min_eq_left (le_trans h2 hns), max_eq_right h1]

/-- C6: during a drag, the computed pane percentage always lies within the
configured `[minSize, maxSize]` interval (for the configured bounds
`0 ≤ minSize ≤ maxSize ≤ 100` and a positive container box), and dragging at
or past either container edge on the active axis pins the value exactly at
the corresponding bound. -/
theorem resize_clamped (isVertical : Bool)
    (minSize maxSize clientX clientY left top width height : ℚ)
    (h0 : 0 ≤ minSize) (h1 : minSize ≤ maxSize) (h2 : maxSize ≤ 100)
    (hw : 0 < width) (hh : 0 < height) :
    (minSize ≤ resizeSize isVertical minSize maxSize clientX clientY left top width height
      ∧ resizeSize isVertical minSize maxSize clientX clientY left top width height ≤ maxSize)
    ∧ (isVertical = true → clientY ≤ top →
        resizeSize isVertical minSize maxSize clientX clientY left top width height = minSize)
    ∧ (isVertical = true → top + height ≤ clientY →
        resizeSize isVertical minSize maxSize clientX clientY left top width height = maxSize)
    ∧ (isVertical = false → clientX ≤ left →
        resizeSize isVertical minSize maxSize clientX clientY left top width height = minSize)
    ∧ (isVertical = false → left + width ≤ clientX →
        resizeSize isVertical minSize maxSize clientX clientY left top width height = maxSize) := by
  refine ⟨⟨le_max_left _ _, max_le h1 (min_le_left _ _)⟩, ?_, ?_, ?_, ?_⟩
  · intro hv hcy
    have h3 : clientY - top ≤ 0 := by linarith
    have hx : (clientY - top) / height ≤ 0 := by
      have := (div_le_div_right hh).mpr h3
      rwa [zero_div] at this
    have hns : (clientY - top) / height * 100 ≤ 0 := by nlinarith
    simp only [resizeSize, hv, if_true]
    exact clampPin_low minSize maxSize _ h0 h1 hns
  · intro hv hcy
    have h3 : height ≤ clientY - top := by linarith
    have hx : 1 ≤ (clientY - top) / height := (one_le_div hh).mpr h3
    have hns : 100 ≤ (clientY - top) / height * 100 := by nlinarith
    simp only [resizeSize, hv, if_true]
    exact clampPin_high minSize maxSize _ h1 h2 hns
  · intro hv hcx
    have h3 : clientX - left ≤ 0 := by linarith
    have hx : (clientX - left) / width ≤ 0 := by
      have := (div_le_div_right hw).mpr h3
      rwa [zero_div] at this
    have hns : (clientX - left) / width * 100 ≤ 0 := by nlinarith
    simp only [resizeSize, hv, Bool.false_eq_true, if_false]
    exact clampPin_low minSize maxSize _ h0 h1 hns
  · intro hv hcx
    have h3 : width ≤ clientX - left := by linarith
    have hx : 1 ≤ (clientX - left) / width := (one_le_div hw).mpr h3
    have hns : 100 ≤ (clientX - left) / width * 100 := by nlinarith
    simp only [resizeSize, hv, Bool.false_eq_true, if_false]
    exact clampPin_high minSize maxSize _ h1 h2 hns

theorem resize_clamped_witness :
    ((0:ℚ) ≤ 40 ∧ (40:ℚ) ≤ 80 ∧ (80:ℚ) ≤ 100 ∧ (0:ℚ) < 600 ∧ (0:ℚ) < 400)
    ∧ (((40:ℚ) ≤ resizeSize true 40 80 0 (-50) 0 0 600 400
        ∧ resizeSize true 40 80 0 (-50) 0 0 600 400 ≤ 80)
      ∧ (true = true → (-50:ℚ) ≤ 0 →
          resizeSize true 40 80 0 (-50) 0 0 600 400 = 40)
      ∧ (true = true → (0:ℚ) + 400 ≤ -50 →
          resizeSize true 40 80 0 (-50) 0 0 600 400 = 80)
      ∧ (true = false → (0:ℚ) ≤ 0 →
          resizeSize true 40 80 0 (-50) 0 0 600 400 = 40)
      ∧ (true = false → (0:ℚ) + 600 ≤ 0 →
          resizeSize true 40 80 0 (-50) 0 0 600 400 = 80)) :=
  ⟨⟨by norm_num, by norm_num, by norm_num, by norm_num, by norm_num⟩,
    resize_clamped true 40 80 0 (-50) 0 0 600 400
      (by norm_num) (by norm_num) (by norm_num) (by norm_num) (by norm_num)⟩

theorem getHistoryKey_inj (a b : String) (h : getHistoryKey a = getHistoryKey b) :
    a = b := by
  have hd : (getHistoryKey a).data = (getHistoryKey b).data := congrArg String.data h
  simp only [getHistoryKey, String.data_append] at hd
  have hc := List.append_cancel_left hd
  cases a
  cases b
  exact congrArg String.mk hc

theorem lookupEntry_setEntry_ne (st : List (String × List Msg)) (k k2 : String)
    (v : List Msg) (h : k ≠ k2) :
    lookupEntry (setEntry st k v) k2 = lookupEntry st k2 := by
  induction st with
  | nil => simp [setEntry, lookupEntry, h]
  | cons e rest ih =>
    obtain ⟨k1, v1⟩ := e
    by_cases h1 : k1 = k
    · subst h1
      simp only [setEntry, if_pos rfl, lookupEntry]
      rw [if_neg h, if_neg h]
    · simp only [setEntry, if_neg h1, lookupEntry]
      by_cases h2 : k1 = k2
      · rw [if_pos h2, if_pos h2]
      · rw [if_neg h2, if_neg h2, ih]

theorem lookupEntry_removeEntry_ne (st : List (String × List Msg)) (k k2 : String)
    (h : k ≠ k2) :
    lookupEntry (removeEntry st k) k2 = lookupEntry st k2 := by
  induction st with
  | nil => rfl
  | cons e rest ih =>
    obtain ⟨k1, v1⟩ := e
    by_cases h1 : k1 = k
    · subst h1
      simp only [removeEntry, if_pos rfl, lookupEntry]
      rw [if_neg h]
      exact ih
    · simp only [removeEntry, if_neg h1, lookupEntry]
      by_cases h2 : k1 = k2
      · rw [if_pos h2, if_pos h2]
      · rw [if_neg h2, if_neg h2, ih]

/-- C9: chat threads are isolated per model key.  Appending a message,
clearing, or switching models under one key writes only under that key: the
persisted thread of every other model key `B` is unchanged by an append, a
clear, and a model switch, and switching back to `B` (even after appending
under another model) reloads exactly `B`'s stored thread. -/
theorem chat_thread_isolation (now : Nat) (s : ChatState) (msg : Msg)
    (m2 B : String) (t : List Msg)
    (hB : B ≠ s.selectedModel) (hB2 : B ≠ m2)
    (ht : lookupEntry s.storage (getHistoryKey B) = some t) :
    lookupEntry (appendAndSave s msg).storage (getHistoryKey B) = some t
    ∧ lookupEntry (clearHistoryOp now s).storage (getHistoryKey B) = some t
    ∧ lookupEntry (switchModel now s m2).storage (getHistoryKey B) = some t
    ∧ (switchModel now (appendAndSave (switchModel now s m2) msg) B).messages = t := by
  have hk1 : getHistoryKey s.selectedModel ≠ getHistoryKey B :=
    fun he => hB (getHistoryKey_inj _ _ he).symm
  have hk2 : getHistoryKey m2 ≠ getHistoryKey B :=
    fun he => hB2 (getHistoryKey_inj _ _ he).symm
  have h3 : lookupEntry (switchModel now s m2).storage (getHistoryKey B) = some t := by
    simp only [switchModel]
    rw [lookupEntry_setEntry_ne _ _ _ _ hk2, lookupEntry_setEntry_ne _ _ _ _ hk2, ht]
  refine ⟨?_, ?_, h3, ?_⟩
  · simp only [appendAndSave]
    rw [lookupEntry_setEntry_ne _ _ _ _ hk1, ht]
  · simp only [clearHistoryOp]
    rw [lookupEntry_setEntry_ne _ _ _ _ hk1,
      lookupEntry_removeEntry_ne _ _ _ hk1, ht]
  · have hsel : (switchModel now s m2).selectedModel = m2 := rfl
    have h4 : lookupEntry
        (appendAndSave (switchModel now s m2) msg).storage (getHistoryKey B) =
        some t := by
      simp only [appendAndSave]
      rw [hsel, lookupEntry_setEntry_ne _ _ _ _ hk2]
      exact h3
    show loadedThread (appendAndSave (switchModel now s m2) msg).storage B now = t
    simp only [loadedThread]
    rw [h4]

theorem chat_thread_isolation_witness :
    (modelB ≠ chatStart.selectedModel ∧ modelB ≠ modelA
      ∧ lookupEntry chatStart.storage (getHistoryKey modelB) = some threadB)
    ∧ (lookupEntry (appendAndSave chatStart msgA).storage
          (getHistoryKey modelB) = some threadB
      ∧ lookupEntry (clearHistoryOp 9 chatStart).storage
          (getHistoryKey modelB) = some threadB
      ∧ lookupEntry (switchModel 9 chatStart modelA).storage
          (getHistoryKey modelB) = some threadB
      ∧ (switchModel 9 (appendAndSave (switchModel 9 chatStart modelA) msgA)
          modelB).messages = threadB) :=
  ⟨⟨by decide, by decide, by decide⟩,
    chat_thread_isolation 9 chatStart msgA modelA modelB threadB
      (by decide) (by decide) (by decide)⟩

theorem jsNum_cases (a : Option ℚ) (fb : ℚ) :
    jsNum a fb = fb ∨ a = some (jsNum a fb) := by
  cases a with
  | none => exact Or.inl rfl
  | some v =>
    by_cases hv : v = 0
    · exact Or.inl (by simp [jsNum, hv])
    · exact Or.inr (by simp [jsNum, hv])

/-- C10 counterexample: a well-formed OK response whose chart data is present
and whose `regularMarketPrice` is present but equal to `0` still makes
`getStockData` return `null` — the price is not missing, so this falls in
the claim's "otherwise returns a populated snapshot" case, which fails
(JS truthiness: `!currentPrice` is true for `0`). -/
theorem getStockData_zero_price_cex :
    outZero = FetchOutcome.ok { chart := some [resultZero] }
    ∧ resultZero.meta.regularMarketPrice = some 0
    ∧ getStockData bhpSym outZero = none := by
  refine ⟨rfl, rfl, ?_⟩
  decide

/-- C10 (amended): `getStockData` never throws to its caller: it returns
`null` exactly on network error, non-OK status, absent chart data (including
a missing quote-indicator block or an empty timestamp array), or a missing
or zero (falsy) current price; in every other case it returns a snapshot
whose numeric fields are all populated, each day high/low/open and the
previous close being either the corresponding response field or a fall-back
drawn from the quote arrays or the current price. -/
theorem getStockData_null_and_fallbacks (sym : String) (out : FetchOutcome) :
    ((getStockData sym out).isNone = getStockDataFails out)
    ∧ ∀ (meta : MetaBlock) (qb : QuoteBlock) (t : Nat) (ts : List Nat)
        (rest : List ChartResult) (snap : ASXStockData),
        getStockData sym (mkChartOut meta qb t ts rest) = some snap →
        snap.symbol = sym
        ∧ meta.regularMarketPrice = some snap.currentPrice
        ∧ snap.currentPrice ≠ 0
        ∧ (snap.high = snap.currentPrice
            ∨ meta.regularMarketDayHigh = some snap.high
            ∨ headOpt qb.high = some snap.high)
        ∧ (snap.low = snap.currentPrice
            ∨ meta.regularMarketDayLow = some snap.low
            ∨ headOpt qb.low = some snap.low)
        ∧ (snap.open_ = snap.currentPrice
            ∨ meta.regularMarketOpen = some snap.open_
            ∨ headOpt qb.open_ = some snap.open_)
        ∧ (snap.previousClose = snap.currentPrice
            ∨ meta.previousClose = some snap.previousClose
            ∨ meta.chartPreviousClose = some snap.previousClose
            ∨ headOpt qb.close = some snap.previousClose)
        ∧ snap.lastUpdated = t
        ∧ snap.name = removeFirstOcc axSuffix meta.symbol := by
  have chain2 : ∀ (a b : Option ℚ) (p : ℚ),
      jsNum a (jsNum b p) = p ∨ a = some (jsNum a (jsNum b p))
        ∨ b = some (jsNum a (jsNum b p)) := by
    intro a b p
    rcases jsNum_cases a (jsNum b p) with h | h
    · rcases jsNum_cases b p with h2 | h2
      · exact Or.inl (h.trans h2)
      · exact Or.inr (Or.inr (by rw [h]; exact h2))
    · exact Or.inr (Or.inl h)
  have chain3 : ∀ (a b c : Option ℚ) (p : ℚ),
      jsNum a (jsNum b (jsNum c p)) = p
        ∨ a = some (jsNum a (jsNum b (jsNum c p)))
        ∨ b = some (jsNum a (jsNum b (jsNum c p)))
        ∨ c = some (jsNum a (jsNum b (jsNum c p))) := by
    intro a b c p
    rcases jsNum_cases a (jsNum b (jsNum c p)) with h | h
    · rcases chain2 b c p with h2 | h2 | h2
      · exact Or.inl (h.trans h2)
      · exact Or.inr (Or.inr (Or.inl (by rw [h]; exact h2)))
      · exact Or.inr (Or.inr (Or.inr (by rw [h]; exact h2)))
    · exact Or.inr (Or.inl h)
  constructor
  · cases out with
    | networkError => rfl
    | httpNotOk st => rfl
    | ok body =>
      obtain ⟨chart⟩ := body
      cases chart with
      | none => rfl
      | some l =>
        cases l with
        | nil => rfl
        | cons r rest =>
          obtain ⟨meta, quoteOpt, tsList⟩ := r
          cases quoteOpt with
          | none => simp [getStockData, getStockDataFails]
          | some qb =>
            cases tsList with
            | nil => simp [getStockData, getStockDataFails]
            | cons t ts =>
              cases hp : meta.regularMarketPrice with
              | none => simp [getStockData, getStockDataFails, truthyQ, hp]
              | some p =>
                by_cases hz : p = 0
                · simp [getStockData, getStockDataFails, truthyQ, hp, hz]
                · simp [getStockData, getStockDataFails, truthyQ, hp, hz]
  · intro meta qb t ts rest snap hsnap
    cases hp : meta.regularMarketPrice with
    | none => simp [mkChartOut, getStockData, hp] at hsnap
    | some p =>
      by_cases hz : p = 0
      · simp [mkChartOut, getStockData, hp, hz] at hsnap
      · simp only [mkChartOut, getStockData, hp] at hsnap
        rw [if_neg hz, Option.some.injEq] at hsnap
        subst hsnap
        refine ⟨rfl, rfl, hz, ?_, ?_, ?_, ?_, rfl, rfl⟩
        · exact chain2 meta.regularMarketDayHigh (headOpt qb.high) p
        · exact chain2 meta.regularMarketDayLow (headOpt qb.low) p
        · exact chain2 meta.regularMarketOpen (headOpt qb.open_) p
        · exact chain3 meta.previousClose meta.chartPreviousClose
            (headOpt qb.close) p

theorem getStockData_null_and_fallbacks_witness :
    getStockData bhpSym (mkChartOut metaGood sampleQuote 1700000000 [] []) =
      some goodSnap
    ∧ (goodSnap.symbol = bhpSym
      ∧ metaGood.regularMarketPrice = some goodSnap.currentPrice
      ∧ goodSnap.currentPrice ≠ 0
      ∧ (goodSnap.high = goodSnap.currentPrice
          ∨ metaGood.regularMarketDayHigh = some goodSnap.high
          ∨ headOpt sampleQuote.high = some goodSnap.high)
      ∧ (goodSnap.low = goodSnap.currentPrice
          ∨ metaGood.regularMarketDayLow = some goodSnap.low
          ∨ headOpt sampleQuote.low = some goodSnap.low)
      ∧ (goodSnap.open_ = goodSnap.currentPrice
          ∨ metaGood.regularMarketOpen = some goodSnap.open_
          ∨ headOpt sampleQuote.open_ = some goodSnap.open_)
      ∧ (goodSnap.previousClose = goodSnap.currentPrice
          ∨ metaGood.previousClose = some goodSnap.previousClose
          ∨ metaGood.chartPreviousClose = some goodSnap.previousClose
          ∨ headOpt sampleQuote.close = some goodSnap.previousClose)
      ∧ goodSnap.lastUpdated = 1700000000
      ∧ goodSnap.name = removeFirstOcc axSuffix metaGood.symbol) :=
  have hgood : getStockData bhpSym
      (mkChartOut metaGood sampleQuote 1700000000 [] []) = some goodSnap := by
    norm_num [mkChartOut, getStockData, jsNum, headOpt, metaGood, sampleQuote,
      goodSnap, bhpSym, removeFirstOcc, isPrefixL, axSuffix, bhpAXChars, bhpChars]
    decide
  ⟨hgood,
    (getStockData_null_and_fallbacks bhpSym outGood).2 metaGood sampleQuote
      1700000000 [] [] goodSnap hgood⟩
